import Mathlib

/-!
Verification of the Family Guy new-episode emailer (`fam_guy_ep_email.py`).

The script fetches the episode list of the show, splits it into aired and
upcoming episodes by comparing ISO-8601 airdate strings with the current date,
selects the latest aired episode by the maximum (airdate, season, number)
tuple, compares against two persisted JSON state files, sends at most one
notification email per run, and persists state only after a successful send.

Dates are ISO-8601 strings compared lexicographically, exactly as the
Python source compares them with `<=` and `>` on strings.  JSON integers
are modelled as `Int`, nullable JSON string fields as `Option String`.
Python truthiness of a string field (`ep.get("airdate")`) is false for a
missing field and for the empty string.
-/

/-- Episode record as consumed from the TVMaze API response
(`_embedded.episodes[]`): fields id, season, number, name, airdate,
summary.  `name`, `airdate` and `summary` may be null in the JSON. -/
structure Episode where
  id : Int
  season : Int
  number : Int
  name : Option String
  airdate : Option String
  summary : Option String
deriving DecidableEq, Repr

/-- Python truthiness of an optional string: `None` and `""` are falsy. -/
def strPresent : Option String → Bool
  | none => false
  | some s => !s.isEmpty

/-- Python `o or d` for an optional string `o`: the string when truthy,
otherwise the default `d`. -/
def strOr (o : Option String) (d : String) : String :=
  match o with
  | none => d
  | some s => if s.isEmpty then d else s

/-- Lexicographic strict comparison of character sequences: the semantics of
Python `<` on strings (code-point order, a proper prefix is smaller). -/
def chListLt : List Char → List Char → Bool
  | [], [] => false
  | [], _ :: _ => true
  | _ :: _, [] => false
  | a :: as, b :: bs => decide (a < b) || (decide (a = b) && chListLt as bs)

/-- Lexicographic comparison of character sequences: the semantics of
Python `<=` on strings. -/
def chListLe : List Char → List Char → Bool
  | [], _ => true
  | _ :: _, [] => false
  | a :: as, b :: bs => decide (a < b) || (decide (a = b) && chListLe as bs)

/-- Python `s < t` on strings. -/
def strLt (s t : String) : Bool := chListLt s.data t.data

/-- Python `s <= t` on strings. -/
def strLe (s t : String) : Bool := chListLe s.data t.data

/-- Guarded airdate comparison `ep.get("airdate") and ep["airdate"] <= today`
from line 119 of the source: true when the airdate is present (truthy) and
lexicographically at most `today`. -/
def airdateLeToday (ep : Episode) (today : String) : Bool :=
  match ep.airdate with
  | none => false
  | some d => !d.isEmpty && strLe d today

/-- Guarded airdate comparison `ep.get("airdate") and ep["airdate"] > today`
from line 120 of the source. -/
def airdateAfterToday (ep : Episode) (today : String) : Bool :=
  match ep.airdate with
  | none => false
  | some d => !d.isEmpty && strLt today d

/-- The aired list: `[ep for ep in episodes if ep.get("airdate") and ep["airdate"] <= today]`. -/
def airedOf (episodes : List Episode) (today : String) : List Episode :=
  episodes.filter (fun ep => airdateLeToday ep today)

/-- The upcoming list: `[ep for ep in episodes if ep.get("airdate") and ep["airdate"] > today]`. -/
def upcomingOf (episodes : List Episode) (today : String) : List Episode :=
  episodes.filter (fun ep => airdateAfterToday ep today)

/-- The sort key `(ep["airdate"], ep["season"], ep["number"])` used by the
`max` call on line 126.  For an aired episode the airdate is present; a
missing airdate is read as `""` (it cannot occur in the aired list). -/
def epKey (ep : Episode) : String × Int × Int :=
  (ep.airdate.getD "", ep.season, ep.number)

/-- Python lexicographic `<` on `(airdate, season, number)` tuples. -/
def tupleLt (a b : String × Int × Int) : Bool :=
  strLt a.1 b.1 ||
    (decide (a.1 = b.1) && (decide (a.2.1 < b.2.1) ||
      (decide (a.2.1 = b.2.1) && decide (a.2.2 < b.2.2))))

/-- Lexicographic `≤` on `(airdate, season, number)` tuples (specification
order used to state the maximality property). -/
def tupleLe (a b : String × Int × Int) : Prop :=
  strLt a.1 b.1 = true ∨
    (a.1 = b.1 ∧ (a.2.1 < b.2.1 ∨ (a.2.1 = b.2.1 ∧ a.2.2 ≤ b.2.2)))

instance (a b : String × Int × Int) : Decidable (tupleLe a b) := by
  unfold tupleLe; infer_instance

/-- One step of Python `max` with a key: keep the current best unless the
key of the next element is strictly greater. -/
def pickMax (best x : Episode) : Episode :=
  if tupleLt (epKey best) (epKey x) then x else best

/-- Python `max(aired, key=lambda ep: (ep["airdate"], ep["season"], ep["number"]))`:
`none` on the empty list, otherwise the left fold of `pickMax` (Python `max`
keeps the first element whose key is maximal). -/
def maxByKey : List Episode → Option Episode
  | [] => none
  | e :: es => some (es.foldl pickMax e)

/-- Removal of every occurrence of `<p>` or `</p>`, scanning left to right:
the effect of `re.sub` of the paragraph-tag pattern with the empty replacement on line 128. -/
def stripPTagsAux : List Char → List Char
  | [] => []
  | '<' :: '/' :: 'p' :: '>' :: rest => stripPTagsAux rest
  | '<' :: 'p' :: '>' :: rest => stripPTagsAux rest
  | c :: rest => c :: stripPTagsAux rest

/-- Removal of leading and trailing whitespace: Python `str.strip()`. -/
def trimChars (cs : List Char) : List Char :=
  ((cs.dropWhile Char.isWhitespace).reverse.dropWhile Char.isWhitespace).reverse

/-- Summary cleanup on lines 127 and 128: default for a falsy summary, strip
paragraph tags, trim surrounding whitespace. -/
def cleanSummary (summary : Option String) : String :=
  String.mk (trimChars (stripPTagsAux (strOr summary "No summary available.").data))

/-- Result of `fetch_episodes` (lines 101 to 129) given whether the HTTP
request succeeded and the decoded episode list.  On request failure or an
empty episode list it returns `(none, [])`; otherwise it splits the list
into aired and upcoming, and when the aired list is non-empty it returns
the maximum-key aired episode with its summary cleaned. -/
def fetch_episodes (fetchOk : Bool) (episodes : List Episode) (today : String) :
    Option Episode × List Episode :=
  if !fetchOk then (none, [])
  else if episodes.isEmpty then (none, [])
  else
    let aired := airedOf episodes today
    let upcoming := upcomingOf episodes today
    match maxByKey aired with
    | none => (none, upcoming)
    | some latest =>
        (some { latest with summary := some (cleanSummary latest.summary) }, upcoming)

/-- Persisted Aired-State record (`latest_episode.json`), as written by
`save_latest_episode`: title, season, episode number and airdate of the last
notified aired episode. -/
structure PrevEpisode where
  title : Option String
  season : Int
  episode : Int
  airdate : Option String
deriving DecidableEq, Repr

/-- The record `save_latest_episode` (lines 92 to 99) writes for an episode. -/
def save_latest_episode (ep : Episode) : PrevEpisode :=
  { title := ep.name, season := ep.season, episode := ep.number, airdate := ep.airdate }

/-- Reading of `latest_episode.json` (lines 86 to 90): the stored record
when the file exists, `None` otherwise. -/
def load_previous_episode (file : Option PrevEpisode) : Option PrevEpisode :=
  match file with
  | some prev => some prev
  | none => none

/-- Reading of `upcoming_notified.json` (lines 52 to 56): the stored id
list when the file exists, the empty list otherwise. -/
def load_upcoming_notified (file : Option (List Int)) : List Int :=
  match file with
  | some ids => ids
  | none => []

/-- The id list `save_upcoming_notified` (lines 58 to 61) writes: the ids of
the first five upcoming episodes. -/
def save_upcoming_notified (upcoming : List Episode) : List Int :=
  (upcoming.take 5).map (fun ep => ep.id)

/-- Line 63 to 67: true when the upcoming list is non-empty and the id list
of its first five episodes differs from the stored id list. -/
def has_new_upcoming (upcoming : List Episode) (notified_ids : List Int) : Bool :=
  if upcoming.isEmpty then false
  else decide ((upcoming.take 5).map (fun ep => ep.id) ≠ notified_ids)

/-- Line 154 to 155: true when there is no previous record or the stored
(season, episode) pair differs from the (season, number) of the latest episode. -/
def is_new_episode (latest : Episode) (previous : Option PrevEpisode) : Bool :=
  match previous with
  | none => true
  | some prev => decide (prev.season ≠ latest.season) || decide (prev.episode ≠ latest.number)

/-- One table row of the upcoming table (line 140): SxEy label, then the
title or "TBA", then the airdate or "TBA". -/
def renderRow (ep : Episode) : String :=
  "<tr><td>S" ++ toString ep.season ++ "E" ++ toString ep.number ++ "</td><td>" ++
    strOr ep.name "TBA" ++ "</td><td>" ++ strOr ep.airdate "TBA" ++ "</td></tr>"

/-- Text of the upcoming table before the interpolated rows (lines 142 to 150). -/
def tableHead : String :=
  "\n      <p><strong>📅 Upcoming Episodes:</strong></p>\n      <table style=\"width: 100%; border-collapse: collapse; font-size: 14px;\">\n        <tr style=\"background-color: #f0f0f0;\">\n          <th style=\"padding: 8px; text-align: left; border-bottom: 1px solid #ddd;\">Episode</th>\n          <th style=\"padding: 8px; text-align: left; border-bottom: 1px solid #ddd;\">Title</th>\n          <th style=\"padding: 8px; text-align: left; border-bottom: 1px solid #ddd;\">Air Date</th>\n        </tr>\n        "

/-- Text of the upcoming table after the interpolated rows (lines 150 to 152). -/
def tableTail : String :=
  "\n      </table>\n    "

/-- Lines 132 to 152: the empty string for an empty list, otherwise the
table with one row accumulated per episode of the first five, in order. -/
def format_upcoming_html (upcoming : List Episode) : String :=
  if upcoming.isEmpty then ""
  else
    let rows := (upcoming.take 5).foldl (fun acc ep => acc ++ renderRow ep) ""
    tableHead ++ rows ++ tableTail

/-- The three run outcomes of the change detector. -/
inductive Outcome where
  | NewAired
  | UpcomingChanged
  | NoChange
deriving DecidableEq, Repr

/-- Contents of the two state files on disk; `none` is an absent file. -/
structure DiskState where
  latestFile : Option PrevEpisode
  upcomingFile : Option (List Int)
deriving DecidableEq, Repr

/-- Environment of one run: whether the HTTP fetch succeeds, the decoded
episode list, the current date, and whether the SMTP send succeeds. -/
structure RunInput where
  fetchOk : Bool
  episodes : List Episode
  today : String
  sendOk : Bool
deriving Repr

/-- Observable result of one run: the detected outcome, which of the two
emails was handed to the mailer, and the state files after the run. -/
structure RunResult where
  outcome : Outcome
  attemptNew : Bool
  attemptUpcoming : Bool
  disk : DiskState
deriving DecidableEq, Repr

/-- The truthy test `latest and is_new_episode(latest, previous_episode)`
on line 177. -/
def newEpCond (latest : Option Episode) (previous : Option PrevEpisode) : Bool :=
  match latest with
  | none => false
  | some l => is_new_episode l previous

/-- The `elif`/`else` part of `main` (lines 196 to 205), reached when
`new_ep` is falsy: send the upcoming email when `has_new_upcoming` holds
and persist the upcoming ids only on a successful send. -/
def runUpcomingBranch (inp : RunInput) (disk : DiskState) (notified : List Int)
    (upcoming : List Episode) : RunResult :=
  if has_new_upcoming upcoming notified then
    if inp.sendOk then
      { outcome := Outcome.UpcomingChanged, attemptNew := false, attemptUpcoming := true,
        disk := { latestFile := disk.latestFile,
                  upcomingFile := some (save_upcoming_notified upcoming) } }
    else
      { outcome := Outcome.UpcomingChanged, attemptNew := false, attemptUpcoming := true,
        disk := disk }
  else
    { outcome := Outcome.NoChange, attemptNew := false, attemptUpcoming := false, disk := disk }

/-- The decision body of `main` (lines 173 to 205): load the two states,
fetch, then either send the new-episode email (persisting the aired state
and, when the upcoming list is non-empty, the upcoming state, only on a
successful send), or fall through to the upcoming branch. -/
def runMain (inp : RunInput) (disk : DiskState) : RunResult :=
  let previous := load_previous_episode disk.latestFile
  let notified := load_upcoming_notified disk.upcomingFile
  let fetched := fetch_episodes inp.fetchOk inp.episodes inp.today
  let upcoming := fetched.2
  match fetched.1 with
  | some l =>
      if is_new_episode l previous then
        if inp.sendOk then
          { outcome := Outcome.NewAired, attemptNew := true, attemptUpcoming := false,
            disk := { latestFile := some (save_latest_episode l),
                      upcomingFile := if upcoming.isEmpty then disk.upcomingFile
                                      else some (save_upcoming_notified upcoming) } }
        else
          { outcome := Outcome.NewAired, attemptNew := true, attemptUpcoming := false,
            disk := disk }
      else runUpcomingBranch inp disk notified upcoming
  | none => runUpcomingBranch inp disk notified upcoming

/-! Concrete fixtures used to instantiate the theorems below. -/

/-- Aired episode S1E1 of 2024-05-01. -/
def epAiredOne : Episode :=
  { id := 1, season := 1, number := 1, name := some "A",
    airdate := some "2024-05-01", summary := none }

/-- Upcoming episode with id 10, airing 2025-02-01. -/
def epUpTen : Episode :=
  { id := 10, season := 2, number := 1, name := none,
    airdate := some "2025-02-01", summary := none }

/-- Upcoming episode with id 11, airing 2025-03-01. -/
def epUpEleven : Episode :=
  { id := 11, season := 2, number := 2, name := none,
    airdate := some "2025-03-01", summary := none }

/-- A stored aired state matching episode S1E1. -/
def prevOne : PrevEpisode :=
  { title := some "t", season := 1, episode := 1, airdate := some "2024-05-01" }

/-! Order lemmas for the lexicographic comparisons. -/

lemma chListLt_irrefl : ∀ a : List Char, chListLt a a = false
  | [] => rfl
  | c :: cs => by simp [chListLt, lt_irrefl, chListLt_irrefl cs]

lemma chListLt_trans : ∀ a b c : List Char,
    chListLt a b = true → chListLt b c = true → chListLt a c = true := by
  intro a
  induction a with
  | nil =>
    intro b c h1 h2
    cases b with
    | nil => simp [chListLt] at h1
    | cons y ys =>
      cases c with
      | nil => simp [chListLt] at h2
      | cons z zs => simp [chListLt]
  | cons x xs ih =>
    intro b c h1 h2
    cases b with
    | nil => simp [chListLt] at h1
    | cons y ys =>
      cases c with
      | nil => simp [chListLt] at h2
      | cons z zs =>
        simp only [chListLt, Bool.or_eq_true, Bool.and_eq_true, decide_eq_true_eq] at h1 h2 ⊢
        rcases h1 with h1 | ⟨rfl, h1⟩
        · rcases h2 with h2 | ⟨rfl, h2⟩
          · exact Or.inl (lt_trans h1 h2)
          · exact Or.inl h1
        · rcases h2 with h2 | ⟨rfl, h2⟩
          · exact Or.inl h2
          · exact Or.inr ⟨rfl, ih ys zs h1 h2⟩

lemma chListLt_total : ∀ a b : List Char,
    chListLt a b = true ∨ a = b ∨ chListLt b a = true := by
  intro a
  induction a with
  | nil =>
    intro b
    cases b with
    | nil => exact Or.inr (Or.inl rfl)
    | cons y ys => exact Or.inl (by simp [chListLt])
  | cons x xs ih =>
    intro b
    cases b with
    | nil => exact Or.inr (Or.inr (by simp [chListLt]))
    | cons y ys =>
      rcases lt_trichotomy x y with h | rfl | h
      · exact Or.inl (by simp [chListLt, h])
      · rcases ih ys with h | rfl | h
        · exact Or.inl (by simp [chListLt, h])
        · exact Or.inr (Or.inl rfl)
        · exact Or.inr (Or.inr (by simp [chListLt, h]))
      · exact Or.inr (Or.inr (by simp [chListLt, h]))

lemma chListLt_asymm (a b : List Char) (h : chListLt a b = true) : chListLt b a = false := by
  cases hc : chListLt b a
  · rfl
  · have haa := chListLt_trans a b a h hc
    rw [chListLt_irrefl] at haa
    exact absurd haa (by simp)

lemma strLt_irrefl (s : String) : strLt s s = false := by
  simpa [strLt] using chListLt_irrefl s.data

lemma strLt_trans {s t u : String} (h1 : strLt s t = true) (h2 : strLt t u = true) :
    strLt s u = true :=
  chListLt_trans s.data t.data u.data h1 h2

lemma strLt_total (s t : String) : strLt s t = true ∨ s = t ∨ strLt t s = true := by
  rcases chListLt_total s.data t.data with h | h | h
  · exact Or.inl h
  · exact Or.inr (Or.inl (String.ext h))
  · exact Or.inr (Or.inr h)

lemma strLt_asymm {s t : String} (h : strLt s t = true) : strLt t s = false :=
  chListLt_asymm s.data t.data h

lemma tupleLe_refl (a : String × Int × Int) : tupleLe a a :=
  Or.inr ⟨rfl, Or.inr ⟨rfl, le_refl _⟩⟩

lemma tupleLe_trans {a b c : String × Int × Int}
    (h1 : tupleLe a b) (h2 : tupleLe b c) : tupleLe a c := by
  obtain ⟨a1, a2, a3⟩ := a
  obtain ⟨b1, b2, b3⟩ := b
  obtain ⟨c1, c2, c3⟩ := c
  simp only [tupleLe] at h1 h2 ⊢
  rcases h1 with h1 | ⟨rfl, h1⟩
  · rcases h2 with h2 | ⟨rfl, h2⟩
    · exact Or.inl (strLt_trans h1 h2)
    · exact Or.inl h1
  · rcases h2 with h2 | ⟨rfl, h2⟩
    · exact Or.inl h2
    · refine Or.inr ⟨rfl, ?_⟩
      rcases h1 with h1 | ⟨rfl, h1⟩
      · rcases h2 with h2 | ⟨rfl, h2⟩
        · exact Or.inl (lt_trans h1 h2)
        · exact Or.inl h1
      · rcases h2 with h2 | ⟨rfl, h2⟩
        · exact Or.inl h2
        · exact Or.inr ⟨rfl, le_trans h1 h2⟩

lemma tupleLe_of_tupleLt {a b : String × Int × Int} (h : tupleLt a b = true) : tupleLe a b := by
  obtain ⟨a1, a2, a3⟩ := a
  obtain ⟨b1, b2, b3⟩ := b
  simp only [tupleLt, Bool.or_eq_true, Bool.and_eq_true, decide_eq_true_eq] at h
  simp only [tupleLe]
  rcases h with h | ⟨rfl, h⟩
  · exact Or.inl h
  · refine Or.inr ⟨rfl, ?_⟩
    omega

lemma tupleLt_false_iff (a b : String × Int × Int) : tupleLt a b = false ↔ tupleLe b a := by
  obtain ⟨a1, a2, a3⟩ := a
  obtain ⟨b1, b2, b3⟩ := b
  simp only [tupleLt, tupleLe, Bool.or_eq_false_iff, Bool.and_eq_false_iff,
    decide_eq_false_iff_not]
  constructor
  · rintro ⟨hlt, h⟩
    rcases strLt_total b1 a1 with hb | rfl | hb
    · exact Or.inl hb
    · refine Or.inr ⟨rfl, ?_⟩
      rcases h with h | h
      · exact absurd rfl h
      · omega
    · exact absurd hb (by simp [hlt])
  · rintro (h | ⟨rfl, h⟩)
    · have h1 : strLt a1 b1 = false := strLt_asymm h
      have h2 : a1 ≠ b1 := by
        rintro rfl
        rw [strLt_irrefl] at h
        exact absurd h (by simp)
      exact ⟨h1, Or.inl h2⟩
    · exact ⟨strLt_irrefl _, Or.inr (by omega)⟩

/-! Lemmas about the fold implementing Python `max` with a key. -/

lemma pickMax_cases (e a : Episode) : pickMax e a = e ∨ pickMax e a = a := by
  unfold pickMax
  split
  · exact Or.inr rfl
  · exact Or.inl rfl

lemma pickMax_le_left (e a : Episode) : tupleLe (epKey e) (epKey (pickMax e a)) := by
  cases hb : tupleLt (epKey e) (epKey a) with
  | false => simp [pickMax, hb, tupleLe_refl]
  | true => simpa [pickMax, hb] using tupleLe_of_tupleLt hb

lemma pickMax_le_right (e a : Episode) : tupleLe (epKey a) (epKey (pickMax e a)) := by
  cases hb : tupleLt (epKey e) (epKey a) with
  | false => simpa [pickMax, hb] using (tupleLt_false_iff _ _).mp hb
  | true => simp [pickMax, hb, tupleLe_refl]

lemma foldl_pickMax_mem (e : Episode) (es : List Episode) :
    es.foldl pickMax e = e ∨ es.foldl pickMax e ∈ es := by
  induction es generalizing e with
  | nil => exact Or.inl rfl
  | cons a as ih =>
    show as.foldl pickMax (pickMax e a) = e ∨ as.foldl pickMax (pickMax e a) ∈ a :: as
    rcases ih (pickMax e a) with h | h
    · rcases pickMax_cases e a with h2 | h2
      · exact Or.inl (by rw [h, h2])
      · exact Or.inr (by rw [h, h2]; exact List.mem_cons_self a as)
    · exact Or.inr (List.mem_cons_of_mem a h)

lemma foldl_pickMax_ge (e : Episode) (es : List Episode) :
    tupleLe (epKey e) (epKey (es.foldl pickMax e)) ∧
      ∀ y ∈ es, tupleLe (epKey y) (epKey (es.foldl pickMax e)) := by
  induction es generalizing e with
  | nil =>
    refine ⟨tupleLe_refl _, ?_⟩
    intro y hy
    cases hy
  | cons a as ih =>
    refine ⟨tupleLe_trans (pickMax_le_left e a) (ih (pickMax e a)).1, ?_⟩
    intro y hy
    rcases List.mem_cons.mp hy with rfl | hy
    · exact tupleLe_trans (pickMax_le_right e y) (ih (pickMax e y)).1
    · exact (ih (pickMax e a)).2 y hy

/-! Claim theorems. -/

/-- C1: for every episode list whose aired subset is non-empty, the episode
selected by the `max` call is a member of the aired subset, its
(airdate, season, number) key is lexicographically maximal among the aired
episodes, and among aired episodes sharing its airdate it has the maximal
(season, number) pair. -/
theorem latest_aired_is_max (episodes : List Episode) (today : String)
    (h : airedOf episodes today ≠ []) :
    ∃ latest, maxByKey (airedOf episodes today) = some latest ∧
      latest ∈ airedOf episodes today ∧
      (∀ e ∈ airedOf episodes today, tupleLe (epKey e) (epKey latest)) ∧
      (∀ e ∈ airedOf episodes today, e.airdate = latest.airdate →
        e.season < latest.season ∨ (e.season = latest.season ∧ e.number ≤ latest.number)) := by
  obtain ⟨x, xs, hx⟩ := List.exists_cons_of_ne_nil h
  rw [hx]
  refine ⟨xs.foldl pickMax x, rfl, ?_, ?_⟩
  · rcases foldl_pickMax_mem x xs with hm | hm
    · rw [hm]; exact List.mem_cons_self x xs
    · exact List.mem_cons_of_mem x hm
  · have hmax : ∀ e ∈ x :: xs, tupleLe (epKey e) (epKey (xs.foldl pickMax x)) := by
      intro e he
      rcases List.mem_cons.mp he with rfl | he
      · exact (foldl_pickMax_ge e xs).1
      · exact (foldl_pickMax_ge x xs).2 e he
    refine ⟨hmax, ?_⟩
    intro e he hdate
    have hle := hmax e he
    simp only [tupleLe, epKey] at hle
    rw [hdate] at hle
    rcases hle with hl | ⟨_, hl⟩
    · rw [strLt_irrefl] at hl
      exact absurd hl (by simp)
    · exact hl

/-- Witness for C1 at a two-episode list sharing one airdate: S1E2 beats
S1E1 on the same day. -/
theorem latest_aired_is_max_witness :
    airedOf
        [{ id := 1, season := 1, number := 1, name := none,
           airdate := some "2024-05-01", summary := none },
         { id := 2, season := 1, number := 2, name := none,
           airdate := some "2024-05-01", summary := none }] "2024-06-01" ≠ [] ∧
    (∃ latest,
      maxByKey (airedOf
        [{ id := 1, season := 1, number := 1, name := none,
           airdate := some "2024-05-01", summary := none },
         { id := 2, season := 1, number := 2, name := none,
           airdate := some "2024-05-01", summary := none }] "2024-06-01") = some latest ∧
      latest ∈ airedOf
        [{ id := 1, season := 1, number := 1, name := none,
           airdate := some "2024-05-01", summary := none },
         { id := 2, season := 1, number := 2, name := none,
           airdate := some "2024-05-01", summary := none }] "2024-06-01" ∧
      (∀ e ∈ airedOf
        [{ id := 1, season := 1, number := 1, name := none,
           airdate := some "2024-05-01", summary := none },
         { id := 2, season := 1, number := 2, name := none,
           airdate := some "2024-05-01", summary := none }] "2024-06-01",
        tupleLe (epKey e) (epKey latest)) ∧
      (∀ e ∈ airedOf
        [{ id := 1, season := 1, number := 1, name := none,
           airdate := some "2024-05-01", summary := none },
         { id := 2, season := 1, number := 2, name := none,
           airdate := some "2024-05-01", summary := none }] "2024-06-01",
        e.airdate = latest.airdate →
        e.season < latest.season ∨ (e.season = latest.season ∧ e.number ≤ latest.number))) :=
  ⟨by decide, latest_aired_is_max _ _ (by decide)⟩

/-- C2: `is_new_episode` is true exactly when there is no stored record or
the stored (season, episode) pair differs from the (season, number) pair
of the latest episode, and it ignores the stored title and airdate. -/
theorem is_new_episode_spec (latest : Episode) (previous : Option PrevEpisode) :
    (is_new_episode latest previous = true ↔
      previous = none ∨ ∃ p, previous = some p ∧
        (p.season ≠ latest.season ∨ p.episode ≠ latest.number)) ∧
    (∀ (p : PrevEpisode) (t a : Option String),
      is_new_episode latest (some { p with title := t, airdate := a }) =
        is_new_episode latest (some p)) := by
  constructor
  · cases previous with
    | none => simp [is_new_episode]
    | some p => simp [is_new_episode]
  · intro p t a
    rfl

/-- C7: membership in the aired and upcoming splits is exactly presence of
a truthy airdate on the right side of today, and an episode with a missing
or empty airdate lands in neither list. -/
theorem aired_upcoming_split (episodes : List Episode) (today : String) (ep : Episode) :
    (ep ∈ airedOf episodes today ↔
      ep ∈ episodes ∧ strPresent ep.airdate = true ∧ strLe (ep.airdate.getD "") today = true) ∧
    (ep ∈ upcomingOf episodes today ↔
      ep ∈ episodes ∧ strPresent ep.airdate = true ∧ strLt today (ep.airdate.getD "") = true) ∧
    (strPresent ep.airdate = false →
      ep ∉ airedOf episodes today ∧ ep ∉ upcomingOf episodes today) := by
  have hA : ep ∈ airedOf episodes today ↔
      ep ∈ episodes ∧ strPresent ep.airdate = true ∧ strLe (ep.airdate.getD "") today = true := by
    rw [airedOf, List.mem_filter]
    cases h : ep.airdate with
    | none => simp [airdateLeToday, strPresent, h]
    | some d => simp [airdateLeToday, strPresent, h, Bool.and_eq_true, and_assoc]
  have hU : ep ∈ upcomingOf episodes today ↔
      ep ∈ episodes ∧ strPresent ep.airdate = true ∧ strLt today (ep.airdate.getD "") = true := by
    rw [upcomingOf, List.mem_filter]
    cases h : ep.airdate with
    | none => simp [airdateAfterToday, strPresent, h]
    | some d => simp [airdateAfterToday, strPresent, h, Bool.and_eq_true, and_assoc]
  refine ⟨hA, hU, ?_⟩
  intro hp
  constructor
  · intro hmem
    rw [(hA.mp hmem).2.1] at hp
    exact absurd hp (by simp)
  · intro hmem
    rw [(hU.mp hmem).2.1] at hp
    exact absurd hp (by simp)

lemma strOr_of_not_present (o : Option String) (d : String) (h : strPresent o = false) :
    strOr o d = d := by
  cases o with
  | none => rfl
  | some s =>
    have he : s.isEmpty = true := by
      simpa [strPresent] using h
    simp [strOr, he]

lemma strJoin_cons (x : String) (xs : List String) :
    String.join (x :: xs) = x ++ String.join xs := by
  apply String.ext
  simp [String.join_eq]

lemma foldl_append_eq_join (l : List Episode) (s : String) :
    l.foldl (fun acc ep => acc ++ renderRow ep) s = s ++ String.join (l.map renderRow) := by
  induction l generalizing s with
  | nil => simp [String.join, String.append_empty]
  | cons a as ih =>
    simp only [List.foldl_cons, List.map_cons, strJoin_cons]
    rw [ih, String.append_assoc]

/-- C9: the upcoming-table formatter returns the empty string on an empty
list; otherwise it renders exactly one row per episode of the first five,
in source order, and a row substitutes "TBA" for a missing or empty title
and for a missing or empty airdate. -/
theorem format_upcoming_spec :
    format_upcoming_html [] = "" ∧
    (∀ ups : List Episode, ups ≠ [] →
      format_upcoming_html ups =
        tableHead ++ String.join ((ups.take 5).map renderRow) ++ tableTail) ∧
    (∀ ups : List Episode, ((ups.take 5).map renderRow).length = min 5 ups.length) ∧
    (∀ ep : Episode, strPresent ep.name = false →
      renderRow ep = "<tr><td>S" ++ toString ep.season ++ "E" ++ toString ep.number ++
        "</td><td>" ++ "TBA" ++ "</td><td>" ++ strOr ep.airdate "TBA" ++ "</td></tr>") ∧
    (∀ ep : Episode, strPresent ep.airdate = false →
      renderRow ep = "<tr><td>S" ++ toString ep.season ++ "E" ++ toString ep.number ++
        "</td><td>" ++ strOr ep.name "TBA" ++ "</td><td>" ++ "TBA" ++ "</td></tr>") := by
  refine ⟨rfl, ?_, ?_, ?_, ?_⟩
  · intro ups h
    have hne : ups.isEmpty = false := by
      rcases ups with _ | ⟨a, as⟩
      · exact absurd rfl h
      · rfl
    simp only [format_upcoming_html, hne, Bool.false_eq_true, if_false]
    rw [foldl_append_eq_join, String.empty_append]
  · intro ups
    simp [List.length_take, List.length_map]
  · intro ep hp
    simp only [renderRow, strOr_of_not_present ep.name "TBA" hp]
  · intro ep hp
    simp only [renderRow, strOr_of_not_present ep.airdate "TBA" hp]

/-- Witness for C9 at a one-episode list whose title and airdate are
missing: the table wraps exactly the one rendered row, and that row shows
"TBA" in the title column. -/
theorem format_upcoming_spec_witness :
    (([{ id := 9, season := 3, number := 4, name := none, airdate := some "",
         summary := none }] : List Episode) ≠ []) ∧
    format_upcoming_html
        [{ id := 9, season := 3, number := 4, name := none, airdate := some "",
           summary := none }] =
      tableHead ++ String.join
        (([{ id := 9, season := 3, number := 4, name := none, airdate := some "",
             summary := none }].take 5).map renderRow) ++ tableTail ∧
    strPresent (Episode.name
      { id := 9, season := 3, number := 4, name := none, airdate := some "",
        summary := none }) = false ∧
    renderRow
        { id := 9, season := 3, number := 4, name := none, airdate := some "",
          summary := none } =
      "<tr><td>S" ++ toString (3 : Int) ++ "E" ++ toString (4 : Int) ++
        "</td><td>" ++ "TBA" ++ "</td><td>" ++
        strOr (some "") "TBA" ++ "</td></tr>" :=
  ⟨by decide, format_upcoming_spec.2.1 _ (by decide), by decide,
    format_upcoming_spec.2.2.2.1 _ (by decide)⟩

/-- C10: loading an absent state file yields the no-prior-state default
(`None` for the aired state, the empty id list for the upcoming state), so
on a first run any latest episode counts as new and any non-empty upcoming
list counts as changed. -/
theorem absent_state_defaults :
    load_previous_episode none = none ∧
    load_upcoming_notified none = [] ∧
    (∀ latest : Episode, is_new_episode latest (load_previous_episode none) = true) ∧
    (∀ ups : List Episode, ups ≠ [] →
      has_new_upcoming ups (load_upcoming_notified none) = true) := by
  refine ⟨rfl, rfl, fun latest => rfl, ?_⟩
  intro ups h
  rcases ups with _ | ⟨a, as⟩
  · exact absurd rfl h
  · simp [has_new_upcoming, load_upcoming_notified]

/-- Witness for C10: with both state files absent, a concrete singleton
upcoming list counts as changed. -/
theorem absent_state_defaults_witness :
    (([{ id := 7, season := 23, number := 1, name := some "x",
         airdate := some "2099-01-01", summary := none }] : List Episode) ≠ []) ∧
    has_new_upcoming
      [{ id := 7, season := 23, number := 1, name := some "x",
         airdate := some "2099-01-01", summary := none }]
      (load_upcoming_notified none) = true :=
  ⟨by decide, absent_state_defaults.2.2.2 _ (by decide)⟩

lemma has_new_upcoming_iff (ups : List Episode) (ids : List Int) :
    has_new_upcoming ups ids = true ↔
      ups ≠ [] ∧ (ups.take 5).map (fun ep => ep.id) ≠ ids := by
  rcases ups with _ | ⟨a, as⟩
  · simp [has_new_upcoming]
  · simp [has_new_upcoming]

/-- C4: when the mail send fails, neither state file is written: the disk
after the run is exactly the disk before it. -/
theorem send_fail_preserves_state (inp : RunInput) (disk : DiskState)
    (h : inp.sendOk = false) :
    (runMain inp disk).disk = disk := by
  simp only [runMain, runUpcomingBranch, h]
  rcases hF : fetch_episodes inp.fetchOk inp.episodes inp.today with ⟨latest, upcoming⟩
  cases latest with
  | none =>
    cases hu : has_new_upcoming upcoming (load_upcoming_notified disk.upcomingFile) <;>
      simp [hu]
  | some l =>
    cases hn : is_new_episode l (load_previous_episode disk.latestFile) with
    | true => simp [hn]
    | false =>
      cases hu : has_new_upcoming upcoming (load_upcoming_notified disk.upcomingFile) <;>
        simp [hn, hu]

/-- Witness for C4: a run whose send fails on a fresh new episode leaves a
concrete non-trivial disk state untouched. -/
theorem send_fail_preserves_state_witness :
    RunInput.sendOk ⟨true, [epAiredOne], "2024-06-01", false⟩ = false ∧
    (runMain ⟨true, [epAiredOne], "2024-06-01", false⟩
        ⟨none, some [42]⟩).disk = ⟨none, some [42]⟩ :=
  ⟨by decide, send_fail_preserves_state _ _ (by decide)⟩

/-- C6: when the fetch fails or decodes an empty episode list, the outcome
is NoChange, no email of either kind is attempted, and no state file is
written, whatever the stored states are. -/
theorem fetch_fail_no_change (inp : RunInput) (disk : DiskState)
    (h : inp.fetchOk = false ∨ inp.episodes = []) :
    (runMain inp disk).outcome = Outcome.NoChange ∧
    (runMain inp disk).attemptNew = false ∧
    (runMain inp disk).attemptUpcoming = false ∧
    (runMain inp disk).disk = disk := by
  have hF : fetch_episodes inp.fetchOk inp.episodes inp.today = (none, []) := by
    rcases h with h | h
    · simp [fetch_episodes, h]
    · cases hb : inp.fetchOk <;> simp [fetch_episodes, h, hb]
  simp [runMain, runUpcomingBranch, hF, has_new_upcoming]

/-- Witness for C6: a failed fetch over a non-trivial stored state changes
nothing. -/
theorem fetch_fail_no_change_witness :
    (RunInput.fetchOk ⟨false, [epAiredOne], "2024-06-01", true⟩ = false ∨
      RunInput.episodes ⟨false, [epAiredOne], "2024-06-01", true⟩ = []) ∧
    ((runMain ⟨false, [epAiredOne], "2024-06-01", true⟩
        ⟨some prevOne, some [42]⟩).outcome = Outcome.NoChange ∧
     (runMain ⟨false, [epAiredOne], "2024-06-01", true⟩
        ⟨some prevOne, some [42]⟩).attemptNew = false ∧
     (runMain ⟨false, [epAiredOne], "2024-06-01", true⟩
        ⟨some prevOne, some [42]⟩).attemptUpcoming = false ∧
     (runMain ⟨false, [epAiredOne], "2024-06-01", true⟩
        ⟨some prevOne, some [42]⟩).disk = ⟨some prevOne, some [42]⟩) :=
  ⟨Or.inl (by decide), fetch_fail_no_change _ _ (Or.inl (by decide))⟩

lemma runMain_outcome (inp : RunInput) (disk : DiskState) :
    (runMain inp disk).outcome =
      (if newEpCond (fetch_episodes inp.fetchOk inp.episodes inp.today).1
          (load_previous_episode disk.latestFile) then Outcome.NewAired
       else if has_new_upcoming (fetch_episodes inp.fetchOk inp.episodes inp.today).2
          (load_upcoming_notified disk.upcomingFile) then Outcome.UpcomingChanged
       else Outcome.NoChange) := by
  simp only [runMain, runUpcomingBranch, newEpCond]
  rcases hF : fetch_episodes inp.fetchOk inp.episodes inp.today with ⟨latest, upcoming⟩
  cases latest with
  | none =>
    cases hu : has_new_upcoming upcoming (load_upcoming_notified disk.upcomingFile) <;>
      cases hs : inp.sendOk <;> simp [hu, hs]
  | some l =>
    cases hn : is_new_episode l (load_previous_episode disk.latestFile) <;>
      cases hu : has_new_upcoming upcoming (load_upcoming_notified disk.upcomingFile) <;>
        cases hs : inp.sendOk <;> simp [hn, hu, hs]

lemma runMain_attemptNew (inp : RunInput) (disk : DiskState) :
    (runMain inp disk).attemptNew =
      newEpCond (fetch_episodes inp.fetchOk inp.episodes inp.today).1
        (load_previous_episode disk.latestFile) := by
  simp only [runMain, runUpcomingBranch, newEpCond]
  rcases hF : fetch_episodes inp.fetchOk inp.episodes inp.today with ⟨latest, upcoming⟩
  cases latest with
  | none =>
    cases hu : has_new_upcoming upcoming (load_upcoming_notified disk.upcomingFile) <;>
      cases hs : inp.sendOk <;> simp [hu, hs]
  | some l =>
    cases hn : is_new_episode l (load_previous_episode disk.latestFile) <;>
      cases hu : has_new_upcoming upcoming (load_upcoming_notified disk.upcomingFile) <;>
        cases hs : inp.sendOk <;> simp [hn, hu, hs]

lemma runMain_attemptUpcoming (inp : RunInput) (disk : DiskState) :
    (runMain inp disk).attemptUpcoming =
      (!newEpCond (fetch_episodes inp.fetchOk inp.episodes inp.today).1
          (load_previous_episode disk.latestFile) &&
        has_new_upcoming (fetch_episodes inp.fetchOk inp.episodes inp.today).2
          (load_upcoming_notified disk.upcomingFile)) := by
  simp only [runMain, runUpcomingBranch, newEpCond]
  rcases hF : fetch_episodes inp.fetchOk inp.episodes inp.today with ⟨latest, upcoming⟩
  cases latest with
  | none =>
    cases hu : has_new_upcoming upcoming (load_upcoming_notified disk.upcomingFile) <;>
      cases hs : inp.sendOk <;> simp [hu, hs]
  | some l =>
    cases hn : is_new_episode l (load_previous_episode disk.latestFile) <;>
      cases hu : has_new_upcoming upcoming (load_upcoming_notified disk.upcomingFile) <;>
        cases hs : inp.sendOk <;> simp [hn, hu, hs]

/-- C3: the run outcome is UpcomingChanged exactly when the new-episode
condition is false, the upcoming list is non-empty, and the ordered first
five upcoming ids differ as a sequence from the stored ids; in particular
a pure reordering of the stored ids still counts as changed (concrete
instance: current ids [10, 11] against stored [11, 10]). -/
theorem upcoming_changed_iff (inp : RunInput) (disk : DiskState) :
    ((runMain inp disk).outcome = Outcome.UpcomingChanged ↔
      newEpCond (fetch_episodes inp.fetchOk inp.episodes inp.today).1
          (load_previous_episode disk.latestFile) = false ∧
      (fetch_episodes inp.fetchOk inp.episodes inp.today).2 ≠ [] ∧
      ((fetch_episodes inp.fetchOk inp.episodes inp.today).2.take 5).map (fun ep => ep.id) ≠
        load_upcoming_notified disk.upcomingFile) ∧
    (runMain ⟨true, [epUpTen, epUpEleven], "2025-01-01", true⟩
        ⟨none, some [11, 10]⟩).outcome = Outcome.UpcomingChanged := by
  refine ⟨?_, by decide⟩
  rw [runMain_outcome]
  have hb := has_new_upcoming_iff (fetch_episodes inp.fetchOk inp.episodes inp.today).2
    (load_upcoming_notified disk.upcomingFile)
  cases hne : newEpCond (fetch_episodes inp.fetchOk inp.episodes inp.today).1
      (load_previous_episode disk.latestFile) with
  | true => simp [hne]
  | false =>
    cases hu : has_new_upcoming (fetch_episodes inp.fetchOk inp.episodes inp.today).2
        (load_upcoming_notified disk.upcomingFile) with
    | true =>
      rw [hu] at hb
      constructor
      · exact fun _ => ⟨rfl, hb.mp rfl⟩
      · intro _
        simp
    | false =>
      rw [hu] at hb
      constructor
      · intro h
        simp at h
      · rintro ⟨_, h1, h2⟩
        exact absurd (hb.mpr ⟨h1, h2⟩) (by simp)

/-- C5: with a successful send, a NewAired run persists the chosen episode
to the aired-state file and, only when the upcoming list is non-empty, its
first five ids to the upcoming-state file; an UpcomingChanged run persists
the upcoming ids only, leaving the aired-state file unchanged. -/
theorem persist_on_success (inp : RunInput) (disk : DiskState) (hs : inp.sendOk = true) :
    ((runMain inp disk).outcome = Outcome.NewAired →
      ∃ l, (fetch_episodes inp.fetchOk inp.episodes inp.today).1 = some l ∧
        (runMain inp disk).disk.latestFile = some (save_latest_episode l) ∧
        (runMain inp disk).disk.upcomingFile =
          (if (fetch_episodes inp.fetchOk inp.episodes inp.today).2.isEmpty then
            disk.upcomingFile
           else some (save_upcoming_notified
            (fetch_episodes inp.fetchOk inp.episodes inp.today).2))) ∧
    ((runMain inp disk).outcome = Outcome.UpcomingChanged →
      (runMain inp disk).disk.latestFile = disk.latestFile ∧
      (runMain inp disk).disk.upcomingFile =
        some (save_upcoming_notified (fetch_episodes inp.fetchOk inp.episodes inp.today).2)) := by
  simp only [runMain, runUpcomingBranch, hs]
  rcases hF : fetch_episodes inp.fetchOk inp.episodes inp.today with ⟨latest, upcoming⟩
  cases latest with
  | none =>
    cases hu : has_new_upcoming upcoming (load_upcoming_notified disk.upcomingFile) <;>
      simp [hu]
  | some l =>
    cases hn : is_new_episode l (load_previous_episode disk.latestFile) with
    | true => simp [hn]
    | false =>
      cases hu : has_new_upcoming upcoming (load_upcoming_notified disk.upcomingFile) <;>
        simp [hn, hu]

/-- Witness for C5: a successful NewAired run persists S1E1 and the one
upcoming id; a successful UpcomingChanged run rewrites only the upcoming
ids, keeping the stored aired state. -/
theorem persist_on_success_witness :
    RunInput.sendOk ⟨true, [epAiredOne, epUpTen], "2024-06-01", true⟩ = true ∧
    (runMain ⟨true, [epAiredOne, epUpTen], "2024-06-01", true⟩
        ⟨none, none⟩).outcome = Outcome.NewAired ∧
    (∃ l, (fetch_episodes true [epAiredOne, epUpTen] "2024-06-01").1 = some l ∧
      (runMain ⟨true, [epAiredOne, epUpTen], "2024-06-01", true⟩
          ⟨none, none⟩).disk.latestFile = some (save_latest_episode l) ∧
      (runMain ⟨true, [epAiredOne, epUpTen], "2024-06-01", true⟩
          ⟨none, none⟩).disk.upcomingFile =
        (if (fetch_episodes true [epAiredOne, epUpTen] "2024-06-01").2.isEmpty then
          (none : Option (List Int))
         else some (save_upcoming_notified
          (fetch_episodes true [epAiredOne, epUpTen] "2024-06-01").2))) ∧
    (runMain ⟨true, [epAiredOne, epUpTen, epUpEleven], "2024-06-01", true⟩
        ⟨some prevOne, some [11, 10]⟩).outcome = Outcome.UpcomingChanged ∧
    ((runMain ⟨true, [epAiredOne, epUpTen, epUpEleven], "2024-06-01", true⟩
        ⟨some prevOne, some [11, 10]⟩).disk.latestFile = some prevOne ∧
     (runMain ⟨true, [epAiredOne, epUpTen, epUpEleven], "2024-06-01", true⟩
        ⟨some prevOne, some [11, 10]⟩).disk.upcomingFile =
      some (save_upcoming_notified
        (fetch_episodes true [epAiredOne, epUpTen, epUpEleven] "2024-06-01").2)) :=
  ⟨by decide, by decide,
    (persist_on_success ⟨true, [epAiredOne, epUpTen], "2024-06-01", true⟩
      ⟨none, none⟩ (by decide)).1 (by decide),
    by decide,
    (persist_on_success ⟨true, [epAiredOne, epUpTen, epUpEleven], "2024-06-01", true⟩
      ⟨some prevOne, some [11, 10]⟩ (by decide)).2 (by decide)⟩

/-- C8: the new-episode condition takes priority over the upcoming check,
and at most one email is handed to the mailer per run: when the
new-episode condition holds the outcome is NewAired and no upcoming email
is attempted, and an attempted upcoming email forces the new-episode
condition to be false. -/
theorem single_email_priority (inp : RunInput) (disk : DiskState) :
    ((runMain inp disk).attemptNew && (runMain inp disk).attemptUpcoming) = false ∧
    (newEpCond (fetch_episodes inp.fetchOk inp.episodes inp.today).1
        (load_previous_episode disk.latestFile) = true →
      (runMain inp disk).outcome = Outcome.NewAired ∧
      (runMain inp disk).attemptUpcoming = false) ∧
    ((runMain inp disk).attemptUpcoming = true →
      newEpCond (fetch_episodes inp.fetchOk inp.episodes inp.today).1
        (load_previous_episode disk.latestFile) = false) := by
  rw [runMain_outcome, runMain_attemptNew, runMain_attemptUpcoming]
  cases hne : newEpCond (fetch_episodes inp.fetchOk inp.episodes inp.today).1
      (load_previous_episode disk.latestFile) <;> simp [hne]

/-- Witness for C8: in a concrete run where the new-episode condition
holds, the outcome is NewAired and the upcoming email is not attempted. -/
theorem single_email_priority_witness :
    newEpCond (fetch_episodes
        (RunInput.fetchOk ⟨true, [epAiredOne, epUpTen], "2024-06-01", true⟩)
        (RunInput.episodes ⟨true, [epAiredOne, epUpTen], "2024-06-01", true⟩)
        (RunInput.today ⟨true, [epAiredOne, epUpTen], "2024-06-01", true⟩)).1
      (load_previous_episode (DiskState.latestFile ⟨none, none⟩)) = true ∧
    ((runMain ⟨true, [epAiredOne, epUpTen], "2024-06-01", true⟩
        ⟨none, none⟩).outcome = Outcome.NewAired ∧
     (runMain ⟨true, [epAiredOne, epUpTen], "2024-06-01", true⟩
        ⟨none, none⟩).attemptUpcoming = false) :=
  ⟨by decide, (single_email_priority _ _).2.1 (by decide)⟩

/-- Witness for C7: an episode with an absent airdate is in neither split
of a concrete three-episode list. -/
theorem aired_upcoming_split_witness :
    strPresent (Episode.airdate
      { id := 4, season := 2, number := 2, name := some "", airdate := none,
        summary := none }) = false ∧
    ({ id := 4, season := 2, number := 2, name := some "", airdate := none,
        summary := none } ∉ airedOf
      [{ id := 1, season := 1, number := 1, name := none, airdate := some "2024-05-01",
         summary := none },
       { id := 4, season := 2, number := 2, name := some "", airdate := none,
         summary := none },
       { id := 3, season := 2, number := 1, name := none, airdate := some "2024-07-01",
         summary := none }] "2024-06-01" ∧
     { id := 4, season := 2, number := 2, name := some "", airdate := none,
        summary := none } ∉ upcomingOf
      [{ id := 1, season := 1, number := 1, name := none, airdate := some "2024-05-01",
         summary := none },
       { id := 4, season := 2, number := 2, name := some "", airdate := none,
         summary := none },
       { id := 3, season := 2, number := 1, name := none, airdate := some "2024-07-01",
         summary := none }] "2024-06-01") :=
  ⟨by decide, (aired_upcoming_split _ _ _).2.2 (by decide)⟩
